import Mathlib

/-!
Verification of the pemerintah-bot news-monitoring pipeline.

The TypeScript sources are shallowly embedded: strings are Lean `String`s
(character positions are reasoned about via `String.toList`), JavaScript
regular-expression word boundaries are modelled explicitly, dates are
epoch timestamps (`Int`), the SQLite articles table is a list of rows with
an autoincrement counter, and effectful collaborators (HTTP fetches, the
Discord webhook, SQLite write outcomes) are oracles passed as parameters.
-/

/-! ## Keyword matching (src/utils/keywords.ts) -/

/-- A JavaScript regex word character: `[A-Za-z0-9_]`.  This is the class
used by the `\b` assertions in `isWholeWordMatch`. -/
def isWordChar (c : Char) : Bool := c.isAlphanum || c == '_'

/-- Whether the character at index `i` of `t` is a word character;
out-of-range positions (including the string edges) count as non-word,
as in JavaScript regex semantics. -/
def charIsWordAt (t : List Char) (i : Nat) : Bool :=
  match t[i]? with
  | some c => isWordChar c
  | none => false

/-- JavaScript `\b` assertion at position `i` of `t` (a position is between
characters; position 0 is before the first character): it holds when exactly
one of the two adjacent sides is a word character, edges counting as
non-word. -/
def boundaryAt (t : List Char) (i : Nat) : Bool :=
  if i = 0 then charIsWordAt t 0
  else charIsWordAt t (i - 1) != charIsWordAt t i

/-- The keyword `k` occurs as a literal substring of `t` at position `i`. -/
def substrAt (t k : List Char) (i : Nat) : Bool :=
  decide ((t.drop i).take k.length = k)

/-- The regex `\b<escaped k>\b` matches `t` at position `i`: the characters
coincide and both `\b` assertions hold.  (The source escapes regex
metacharacters in `k` before wrapping, so `k` is always matched literally.) -/
def wholeWordMatchAt (t k : List Char) (i : Nat) : Bool :=
  substrAt t k i && boundaryAt t i && boundaryAt t (i + k.length)

/-- Function `isWholeWordMatch(text, keyword)` from src/utils/keywords.ts: the test
of the regex `new RegExp("\\b" + escapeRegExp(keyword) + "\\b", "i")`
against `text`.  Both arguments are already lowercased by the caller, so
the `i` flag has no further effect. -/
def isWholeWordMatch (t k : List Char) : Bool :=
  (List.range (t.length + 1)).any (fun i => wholeWordMatchAt t k i)

/-- Lowercasing of a character list, modelling `String.prototype.toLowerCase`
on the ASCII range. -/
def lowerStr (s : List Char) : List Char := s.map Char.toLower

/-- Function `findMatchingKeywords(text, keywords)` from src/utils/keywords.ts:
returns `[]` for empty text or an empty keyword list, otherwise keeps, in
input order, every keyword whose lowercase form matches the lowercased
text as a whole word. -/
def findMatchingKeywords (text : String) (keywords : List String) : List String :=
  if text = "" ∨ keywords = [] then []
  else keywords.filter
    (fun kw => isWholeWordMatch (lowerStr text.toList) (lowerStr kw.toList))

/-- Whitespace removal from both ends of a character list, modelling
`String.prototype.trim` on the ASCII whitespace characters. -/
def trimList (s : List Char) : List Char :=
  ((s.dropWhile Char.isWhitespace).reverse.dropWhile Char.isWhitespace).reverse

/-- The call `keyword.trim()` as used by `validateKeywords`. -/
def trimS (s : String) : String := String.mk (trimList s.toList)

/-- The validation errors contributed by one keyword in the loop body of
`validateKeywords` (src/utils/keywords.ts): an emptiness error for a
keyword that trims to nothing (the loop then continues), else a length
error when the trimmed keyword is shorter than 2 characters.  The
regex-special-character check only emits a `console.warn`, never an
entry of the returned error array. -/
def keywordErrors (k : String) : List String :=
  let t := trimS k
  if t = "" then ["Empty keyword detected"]
  else if t.length < 2 then
    ["Keyword \"" ++ t ++ "\" is too short (minimum 2 characters)"]
  else []

/-- Function `validateKeywords(keywords)` from src/utils/keywords.ts: the
concatenation, in input order, of each keyword's validation errors. -/
def validateKeywords (keywords : List String) : List String :=
  keywords.flatMap keywordErrors

/-- Claim-side notion for C2, as the claim words it: an occurrence of `k`
in `t` at `i` bounded on both sides by non-alphanumeric characters or the
string edges. -/
def alnumBoundedAt (t k : List Char) (i : Nat) : Bool :=
  substrAt t k i &&
  (decide (i = 0) || !(match t[i - 1]? with
                       | some c => c.isAlphanum
                       | none => false)) &&
  (decide (i + k.length = t.length) || !(match t[i + k.length]? with
                                         | some c => c.isAlphanum
                                         | none => false))

/-- Amended claim-side notion for C2: an occurrence of `k` in `t` at `i`
bounded on both sides by non-word characters (neither alphanumeric nor
underscore) or the string edges. -/
def wordBoundedAt (t k : List Char) (i : Nat) : Bool :=
  substrAt t k i &&
  (decide (i = 0) || !(charIsWordAt t (i - 1))) &&
  (decide (i + k.length = t.length) || !(charIsWordAt t (i + k.length)))

/-! ### Supporting lemmas about occurrences -/

theorem substrAt_getElem (t k : List Char) (i : Nat) (h : substrAt t k i = true) :
    ∀ j, j < k.length → t[i + j]? = k[j]? := by
  intro j hj
  have he : (t.drop i).take k.length = k := of_decide_eq_true h
  calc t[i + j]? = (t.drop i)[j]? := (List.getElem?_drop t i j).symm
    _ = ((t.drop i).take k.length)[j]? := by
        rw [List.getElem?_take]
        simp [hj]
    _ = k[j]? := by rw [he]

theorem substrAt_le_length (t k : List Char) (i : Nat) (h : substrAt t k i = true)
    (hk : 0 < k.length) : i + k.length ≤ t.length := by
  have he : (t.drop i).take k.length = k := of_decide_eq_true h
  have hl : ((t.drop i).take k.length).length = k.length := by rw [he]
  rw [List.length_take, List.length_drop] at hl
  omega

theorem charIsWordAt_of_substrAt (t k : List Char) (i j : Nat)
    (h : substrAt t k i = true) (hj : j < k.length) :
    charIsWordAt t (i + j) = charIsWordAt k j := by
  unfold charIsWordAt
  rw [substrAt_getElem t k i h j hj]

theorem charIsWordAt_oob (t : List Char) (i : Nat) (h : t.length ≤ i) :
    charIsWordAt t i = false := by
  unfold charIsWordAt
  rw [List.getElem?_eq_none h]

theorem length_lowerStr (s : List Char) : (lowerStr s).length = s.length :=
  List.length_map s Char.toLower

theorem mem_findMatchingKeywords_single (t k : String) :
    k ∈ findMatchingKeywords t [k] ↔
      t ≠ "" ∧ isWholeWordMatch (lowerStr t.toList) (lowerStr k.toList) = true := by
  unfold findMatchingKeywords
  by_cases ht : t = ""
  · simp [ht]
  · rw [if_neg (by simp [ht])]
    cases hb : isWholeWordMatch (lowerStr t.toList) (lowerStr k.toList)
    · simp only [String.toList] at hb
      simp [List.filter, hb, ht]
    · simp only [String.toList] at hb
      simp [List.filter, hb, ht]

/-- C2 counterexample: in the text "ijazah_palsu" the keyword "ijazah"
(length 6 ≥ 2) occurs at position 0 bounded by a string edge on the left
and by the non-alphanumeric character underscore on the right, yet
`findMatchingKeywords` does not include it: the JavaScript `\b` assertion
treats the underscore as a word character, so no word boundary lies
between "ijazah" and "_palsu". -/
theorem findMatchingKeywords_underscore_violation :
    2 ≤ "ijazah".toList.length
    ∧ alnumBoundedAt (lowerStr "ijazah_palsu".toList) (lowerStr "ijazah".toList) 0 = true
    ∧ findMatchingKeywords "ijazah_palsu" ["ijazah"] = [] := by
  refine ⟨by decide, by decide, by decide⟩


theorem wordBounded_wholeWord (lt lk : List Char) (hk : 2 ≤ lk.length)
    (hfirst : charIsWordAt lk 0 = true)
    (hlast : charIsWordAt lk (lk.length - 1) = true)
    (i : Nat) (hb : wordBoundedAt lt lk i = true) :
    wholeWordMatchAt lt lk i = true := by
  unfold wordBoundedAt at hb
  rw [Bool.and_eq_true, Bool.and_eq_true] at hb
  obtain ⟨⟨hsub, hleft⟩, hright⟩ := hb
  have hfit : i + lk.length ≤ lt.length :=
    substrAt_le_length lt lk i hsub (by omega)
  have hW0 : charIsWordAt lt i = true := by
    have h0 := charIsWordAt_of_substrAt lt lk i 0 hsub (by omega)
    rw [Nat.add_zero] at h0
    rw [h0]
    exact hfirst
  have hWlast : charIsWordAt lt (i + lk.length - 1) = true := by
    have h1 := charIsWordAt_of_substrAt lt lk i (lk.length - 1) hsub (by omega)
    have h2 : i + lk.length - 1 = i + (lk.length - 1) := by omega
    rw [h2, h1]
    exact hlast
  unfold wholeWordMatchAt
  rw [Bool.and_eq_true, Bool.and_eq_true]
  refine ⟨⟨hsub, ?_⟩, ?_⟩
  · unfold boundaryAt
    by_cases hi : i = 0
    · rw [if_pos hi]
      rw [hi] at hW0
      exact hW0
    · rw [if_neg hi]
      rw [Bool.or_eq_true] at hleft
      rcases hleft with h | h
      · exact absurd (of_decide_eq_true h) hi
      · rw [Bool.not_eq_true'] at h
        rw [h, hW0]
        rfl
  · unfold boundaryAt
    rw [if_neg (by omega)]
    rw [Bool.or_eq_true] at hright
    rcases hright with h | h
    · have hend : i + lk.length = lt.length := of_decide_eq_true h
      rw [hWlast, charIsWordAt_oob lt (i + lk.length) (by omega)]
      rfl
    · rw [Bool.not_eq_true'] at h
      rw [hWlast, h]
      rfl

theorem isWholeWordMatch_eq_false_of_inner (lt lk : List Char) (hk : 2 ≤ lk.length)
    (hfirst : charIsWordAt lk 0 = true)
    (hlast : charIsWordAt lk (lk.length - 1) = true)
    (hall : ∀ i, substrAt lt lk i = true →
      ((0 < i ∧ charIsWordAt lt (i - 1) = true) ∨
        charIsWordAt lt (i + lk.length) = true)) :
    isWholeWordMatch lt lk = false := by
  rw [Bool.eq_false_iff]
  intro hm
  unfold isWholeWordMatch at hm
  rw [List.any_eq_true] at hm
  obtain ⟨i, -, hi⟩ := hm
  unfold wholeWordMatchAt at hi
  rw [Bool.and_eq_true, Bool.and_eq_true] at hi
  obtain ⟨⟨hsub, hb1⟩, hb2⟩ := hi
  have hW0 : charIsWordAt lt i = true := by
    have h0 := charIsWordAt_of_substrAt lt lk i 0 hsub (by omega)
    rw [Nat.add_zero] at h0
    rw [h0]
    exact hfirst
  have hWlast : charIsWordAt lt (i + lk.length - 1) = true := by
    have h1 := charIsWordAt_of_substrAt lt lk i (lk.length - 1) hsub (by omega)
    have h2 : i + lk.length - 1 = i + (lk.length - 1) := by omega
    rw [h2, h1]
    exact hlast
  rcases hall i hsub with ⟨hip, hadj⟩ | hadj
  · unfold boundaryAt at hb1
    rw [if_neg (by omega)] at hb1
    rw [hadj, hW0] at hb1
    exact absurd hb1 (by decide)
  · unfold boundaryAt at hb2
    rw [if_neg (by omega)] at hb2
    rw [hadj, hWlast] at hb2
    exact absurd hb2 (by decide)

/-- C2 (amended): for every text `T` and keyword `K` of length ≥ 2 whose
lowercased first and last characters are word characters (alphanumeric or
underscore): if `K` occurs case-insensitively in `T` bounded on both sides
by non-word characters or string edges then `findMatchingKeywords T [K]`
includes `K`; and if every case-insensitive occurrence of `K` in `T` has a
word character immediately adjacent on at least one side (i.e. lies inside
a longer word-character token) then `findMatchingKeywords T [K]` excludes
`K`. -/
theorem findMatchingKeywords_whole_word (t k : String)
    (hk : 2 ≤ k.toList.length)
    (hfirst : charIsWordAt (lowerStr k.toList) 0 = true)
    (hlast : charIsWordAt (lowerStr k.toList) (k.toList.length - 1) = true) :
    ((∃ i, wordBoundedAt (lowerStr t.toList) (lowerStr k.toList) i = true) →
        k ∈ findMatchingKeywords t [k])
    ∧ ((∀ i, substrAt (lowerStr t.toList) (lowerStr k.toList) i = true →
          ((0 < i ∧ charIsWordAt (lowerStr t.toList) (i - 1) = true) ∨
            charIsWordAt (lowerStr t.toList) (i + k.toList.length) = true)) →
        k ∉ findMatchingKeywords t [k]) := by
  have hklen : (lowerStr k.toList).length = k.toList.length := length_lowerStr k.toList
  have hk2 : 2 ≤ (lowerStr k.toList).length := by omega
  have hlast2 : charIsWordAt (lowerStr k.toList) ((lowerStr k.toList).length - 1) = true := by
    rw [hklen]
    exact hlast
  constructor
  · rintro ⟨i, hb⟩
    have hmatch := wordBounded_wholeWord _ _ hk2 hfirst hlast2 i hb
    have hsub : substrAt (lowerStr t.toList) (lowerStr k.toList) i = true := by
      unfold wordBoundedAt at hb
      rw [Bool.and_eq_true, Bool.and_eq_true] at hb
      exact hb.1.1
    have hfit : i + (lowerStr k.toList).length ≤ (lowerStr t.toList).length :=
      substrAt_le_length _ _ i hsub (by omega)
    rw [mem_findMatchingKeywords_single]
    refine ⟨?_, ?_⟩
    · intro he
      subst he
      have h0 : (lowerStr "".toList).length = 0 := rfl
      omega
    · unfold isWholeWordMatch
      rw [List.any_eq_true]
      exact ⟨i, List.mem_range.mpr (by omega), hmatch⟩
  · intro hall hmem
    rw [mem_findMatchingKeywords_single] at hmem
    have hfalse := isWholeWordMatch_eq_false_of_inner
      (lowerStr t.toList) (lowerStr k.toList) hk2 hfirst hlast2 ?_
    · rw [hfalse] at hmem
      exact absurd hmem.2 (by decide)
    · intro i hsub
      rw [hklen]
      exact hall i hsub

/-- C2 witness: the amended theorem applied at the spec's own example,
text "ijazah palsu beredar" and keyword "ijazah". -/
theorem findMatchingKeywords_whole_word_witness :
    "ijazah" ∈ findMatchingKeywords "ijazah palsu beredar" ["ijazah"] :=
  (findMatchingKeywords_whole_word "ijazah palsu beredar" "ijazah"
      (by decide) (by decide) (by decide)).1 ⟨0, by decide⟩

/-- C6: `validateKeywords` reports, keyword by keyword, exactly one
emptiness error for each keyword that trims to nothing and exactly one
length error for each keyword whose trimmed form is shorter than 2
characters, and no error for any other keyword: in particular multi-word
phrases such as "ijazah palsu" and keywords containing regex-special
characters produce no blocking error (the special-character check is only
a console warning). -/
theorem validateKeywords_rules :
    (∀ ks : List String, validateKeywords ks = ks.flatMap keywordErrors)
    ∧ (∀ k : String, trimS k = "" → keywordErrors k = ["Empty keyword detected"])
    ∧ (∀ k : String, trimS k ≠ "" → (trimS k).length < 2 →
        keywordErrors k =
          ["Keyword \"" ++ trimS k ++ "\" is too short (minimum 2 characters)"])
    ∧ (∀ k : String, 2 ≤ (trimS k).length → keywordErrors k = [])
    ∧ validateKeywords ["ijazah palsu"] = []
    ∧ validateKeywords ["pe.mer*intah"] = []
    ∧ validateKeywords [""] = ["Empty keyword detected"]
    ∧ validateKeywords ["ab"] = []
    ∧ validateKeywords ["a"] ≠ [] := by
  refine ⟨fun ks => rfl, ?_, ?_, ?_, by decide, by decide, by decide, by decide, by decide⟩
  · intro k h
    simp [keywordErrors, h]
  · intro k h1 h2
    simp [keywordErrors, h1, h2]
  · intro k hlen
    have ht : trimS k ≠ "" := by
      intro h
      rw [h] at hlen
      exact absurd hlen (by decide)
    simp [keywordErrors, ht]
    omega

/-- C6 witness: the rules applied at concrete keywords "", "a" and "ok". -/
theorem validateKeywords_rules_witness :
    keywordErrors "" = ["Empty keyword detected"]
    ∧ keywordErrors "a" = ["Keyword \"" ++ trimS "a" ++ "\" is too short (minimum 2 characters)"]
    ∧ keywordErrors "ok" = [] :=
  ⟨validateKeywords_rules.2.1 "" (by decide),
   validateKeywords_rules.2.2.1 "a" (by decide) (by decide),
   validateKeywords_rules.2.2.2.1 "ok" (by decide)⟩

/-! ## Dedup store (src/services/database.ts)

The SQLite `articles` table is modelled as a list of rows together with
the autoincrement counter (SQLite row ids start at 1).  Timestamps are
epoch values; the ISO serialization of dates and the JSON serialization of
the matched-keyword list are injective and are modelled as the identity. -/

/-- The `Article` record handed to `DatabaseService.saveArticle`
(the `Omit<Article, "id">` shape). -/
structure Article where
  url : String
  title : String
  source : String
  publishedAt : Int
  processedAt : Int
  matchedKeywords : List String
  imageUrl : Option String
  description : Option String
deriving DecidableEq, Repr

/-- One row of the `articles` table. -/
structure ArticleRow where
  id : Nat
  url : String
  title : String
  source : String
  publishedAt : Int
  processedAt : Int
  matchedKeywords : List String
  imageUrl : Option String
  description : Option String
deriving DecidableEq, Repr

/-- The database state: stored rows plus the next autoincrement id. -/
structure DBState where
  rows : List ArticleRow
  nextId : Nat
deriving DecidableEq, Repr

/-- A freshly initialized database: empty table, autoincrement at 1. -/
def emptyDB : DBState := { rows := [], nextId := 1 }

/-- Method `DatabaseService.isArticleProcessed(url)`:
`SELECT 1 FROM articles WHERE url = ? LIMIT 1` is non-empty. -/
def isArticleProcessed (s : DBState) (url : String) : Bool :=
  s.rows.any (fun r => r.url == url)

/-- A character removed by `title.replace(/[\x00-\x1F\x7F]/g, "")`. -/
def isStrippedControl (c : Char) : Bool := c.toNat ≤ 0x1F || c.toNat == 0x7F

/-- The title sanitization in `saveArticle`: control characters removed,
then trimmed. -/
def sanitizeTitle (t : String) : String :=
  trimS (String.mk (t.toList.filter (fun c => !(isStrippedControl c))))

/-- JavaScript `x || null` applied to an optional string column value:
an empty string is coerced to NULL. -/
def orNull (o : Option String) : Option String :=
  match o with
  | some s => if s = "" then none else some s
  | none => none

/-- The row that the `INSERT OR IGNORE` of `saveArticle` appends: the
next autoincrement id, the sanitized title, and the bound column values
(`article.imageUrl || null`, `article.description || null`). -/
def rowOf (s : DBState) (a : Article) : ArticleRow :=
  { id := s.nextId
    url := a.url
    title := sanitizeTitle a.title
    source := a.source
    publishedAt := a.publishedAt
    processedAt := a.processedAt
    matchedKeywords := a.matchedKeywords
    imageUrl := orNull a.imageUrl
    description := orNull a.description }

/-- The `INSERT OR IGNORE` statement of `saveArticle` plus the
changes-equal-zero fallback `SELECT id FROM articles WHERE url = ?`:
if a row with the same url exists its id is returned and nothing changes,
otherwise a new row is appended under the next autoincrement id. -/
def insertArticle (s : DBState) (a : Article) : Nat × DBState :=
  match s.rows.find? (fun r => r.url == a.url) with
  | some r => (r.id, s)
  | none => (s.nextId, { rows := s.rows ++ [rowOf s a], nextId := s.nextId + 1 })

/-- The field validation at the top of `saveArticle`: a falsy url, title
or source, or a title that sanitizes to the empty string, raises an error
that the surrounding catch treats as non-corrupt (the write is dropped
and 0 is returned). -/
def validFields (a : Article) : Bool :=
  !(a.url == "") && !(a.title == "") && !(a.source == "") &&
  !(sanitizeTitle a.title == "")

/-- Method `DatabaseService.saveArticle` on the path where the SQLite write
itself succeeds: invalid fields yield id 0 and no change, otherwise the
insert-or-ignore semantics of `insertArticle`. -/
def saveArticleOk (s : DBState) (a : Article) : Nat × DBState :=
  if validFields a then insertArticle s a else (0, s)

/-- Outcome of one attempted SQLite write, as seen by `saveArticle`'s
catch block: the write succeeds, or raises `SQLITE_CORRUPT` (in which
case `initialize()` is re-run with the given outcome), or raises any
other error. -/
inductive WriteAttempt where
  | succeeds
  | failsCorrupt (initOk : Bool)
  | failsOther
deriving DecidableEq, Repr

/-- The catch-and-retry structure of `saveArticle` for a valid article,
driven by an oracle listing the outcome of each successive write attempt
(an exhausted oracle means the write succeeds).  On `SQLITE_CORRUPT` the
service re-initializes and, if that works, recursively re-enters
`saveArticle` — there is no retry counter, so each further corrupt
outcome triggers another re-initialization; if the re-initialization
fails, `throw recoveryError` propagates the error to the caller.  Any
other write error is logged and swallowed, returning id 0. -/
def runWrite (s : DBState) (a : Article) : List WriteAttempt → Except String (Nat × DBState)
  | [] => .ok (insertArticle s a)
  | .succeeds :: _ => .ok (insertArticle s a)
  | .failsOther :: _ => .ok (0, s)
  | .failsCorrupt true :: rest => runWrite s a rest
  | .failsCorrupt false :: _ => .error "recovery failed"

/-- Method `DatabaseService.saveArticle` with explicit write-attempt outcomes:
field validation happens before any write, so invalid articles return 0
without touching the oracle. -/
def saveArticleR (s : DBState) (a : Article) (attempts : List WriteAttempt) :
    Except String (Nat × DBState) :=
  if validFields a then runWrite s a attempts else .ok (0, s)

/-- Number of automatic re-initializations `runWrite` performs before
reaching a terminal outcome on the given oracle. -/
def reinitCount : List WriteAttempt → Nat
  | WriteAttempt.failsCorrupt true :: rest => reinitCount rest + 1
  | _ => 0

/-- Saving a list of articles in order, each through the success-path
`saveArticle` wrapped in the orchestrator's per-article try/catch. -/
def saveMany (s : DBState) (articles : List Article) : DBState :=
  articles.foldl (fun st a => (saveArticleOk st a).2) s

/-- Stable insertion of a row into a list already sorted by descending
`processedAt`: the row goes after every row with a key at least as large. -/
def insertDesc (r : ArticleRow) : List ArticleRow → List ArticleRow
  | [] => [r]
  | x :: xs =>
    if r.processedAt ≤ x.processedAt then x :: insertDesc r xs
    else r :: x :: xs

/-- Stable sort by descending `processedAt`, modelling
`ORDER BY processed_at DESC`. -/
def sortByProcessedAtDesc (l : List ArticleRow) : List ArticleRow :=
  l.foldl (fun acc r => insertDesc r acc) []

/-- Method `DatabaseService.getRecentArticles(source?, limit)`: optional source
filter, `ORDER BY processed_at DESC`, `LIMIT ?`. -/
def getRecentArticles (s : DBState) (source : Option String) (limit : Nat) :
    List ArticleRow :=
  let rows : List ArticleRow := match source with
    | some src => s.rows.filter (fun r => r.source == src)
    | none => s.rows
  (sortByProcessedAtDesc rows).take limit

deriving instance DecidableEq for Except

/-! ### Store lemmas -/

theorem filter_eq_nil_of_find?_eq_none {rows : List ArticleRow} {p : ArticleRow → Bool}
    (h : rows.find? p = none) : rows.filter p = [] := by
  rw [List.filter_eq_nil_iff]
  exact List.find?_eq_none.mp h

theorem beq_url_refl (u : String) : (u == u) = true := beq_self_eq_true u

/-- A record with an empty title, rejected by `saveArticle`'s field
validation. -/
def artC4bad : Article :=
  { url := "https://x/1"
    title := ""
    source := "s"
    publishedAt := 0
    processedAt := 5
    matchedKeywords := ["k"]
    imageUrl := none
    description := none }

/-- C4 counterexample: for the record with url "https://x/1" but an empty
title, `saveArticle` raises the missing-required-fields error, which its
catch swallows, returning id 0 — twice in a row.  Both calls return the
same id (0), but the store is left with zero rows for that url, not
exactly one: the claim fails for records rejected by field validation. -/
theorem saveArticle_invalid_counterexample :
    (saveArticleOk emptyDB artC4bad).1 = 0
    ∧ (saveArticleOk (saveArticleOk emptyDB artC4bad).2 artC4bad).1 = 0
    ∧ ((saveArticleOk (saveArticleOk emptyDB artC4bad).2 artC4bad).2.rows.filter
        (fun r => r.url == "https://x/1")).length = 0 := by
  refine ⟨by decide, by decide, by decide⟩


theorem insertArticle_found (s : DBState) (a : Article) (r : ArticleRow)
    (hf : s.rows.find? (fun x => x.url == a.url) = some r) :
    insertArticle s a = (r.id, s) := by
  unfold insertArticle
  rw [hf]

theorem insertArticle_new (s : DBState) (a : Article)
    (hf : s.rows.find? (fun x => x.url == a.url) = none) :
    insertArticle s a =
      (s.nextId, { rows := s.rows ++ [rowOf s a], nextId := s.nextId + 1 }) := by
  unfold insertArticle
  rw [hf]

/-- C4 (amended): `saveArticle` is idempotent per url for records that
pass field validation, provided the store respects the url uniqueness
constraint (at most one stored row for the url): a second save of any
valid record with the same url returns the same surrogate id as the
first, changes nothing, and exactly one row for that url is stored.
Records rejected by field validation (empty url, title or source, or a
title that sanitizes to the empty string) instead return id 0 and store
nothing. -/
theorem saveArticle_idempotent (s : DBState) (a b : Article)
    (hva : validFields a = true) (hvb : validFields b = true)
    (hurl : b.url = a.url)
    (hcount : (s.rows.filter (fun x => x.url == a.url)).length ≤ 1) :
    (saveArticleOk (saveArticleOk s a).2 b).1 = (saveArticleOk s a).1
    ∧ (saveArticleOk (saveArticleOk s a).2 b).2 = (saveArticleOk s a).2
    ∧ ((saveArticleOk s a).2.rows.filter (fun x => x.url == a.url)).length = 1 := by
  have hp : (fun x : ArticleRow => x.url == b.url) = (fun x : ArticleRow => x.url == a.url) := by
    rw [hurl]
  cases hf : s.rows.find? (fun x => x.url == a.url) with
  | some r =>
    have h1 : saveArticleOk s a = (r.id, s) := by
      unfold saveArticleOk
      rw [if_pos hva, insertArticle_found s a r hf]
    have h2 : saveArticleOk s b = (r.id, s) := by
      unfold saveArticleOk
      rw [if_pos hvb]
      unfold insertArticle
      rw [hp, hf]
    refine ⟨?_, ?_, ?_⟩
    · simp [h1, h2]
    · simp [h1, h2]
    · simp only [h1]
      show (s.rows.filter (fun x => x.url == a.url)).length = 1
      have hmem : r ∈ s.rows.filter (fun x => x.url == a.url) := by
        apply List.mem_filter.mpr
        refine ⟨List.mem_of_find?_eq_some hf, ?_⟩
        have h3 := List.find?_some hf
        exact h3
      have hpos : 0 < (s.rows.filter (fun x => x.url == a.url)).length :=
        List.length_pos.mpr (List.ne_nil_of_mem hmem)
      omega
  | none =>
    have h1 : saveArticleOk s a =
        (s.nextId, { rows := s.rows ++ [rowOf s a], nextId := s.nextId + 1 }) := by
      unfold saveArticleOk
      rw [if_pos hva, insertArticle_new s a hf]
    have hfind2 : (s.rows ++ [rowOf s a]).find? (fun x => x.url == a.url) = some (rowOf s a) := by
      rw [List.find?_append, hf]
      simp [List.find?, rowOf, beq_url_refl]
    have h2 : saveArticleOk { rows := s.rows ++ [rowOf s a], nextId := s.nextId + 1 } b =
        (s.nextId, { rows := s.rows ++ [rowOf s a], nextId := s.nextId + 1 }) := by
      unfold saveArticleOk
      rw [if_pos hvb]
      unfold insertArticle
      rw [hp]
      simp only [hfind2]
      simp [rowOf]
    refine ⟨?_, ?_, ?_⟩
    · simp [h1, h2]
    · simp [h1, h2]
    · simp only [h1]
      show ((s.rows ++ [rowOf s a]).filter (fun x => x.url == a.url)).length = 1
      rw [List.filter_append, filter_eq_nil_of_find?_eq_none hf]
      simp [List.filter, rowOf, beq_url_refl]

/-- A well-formed record used to witness the idempotence theorem. -/
def artC4ok : Article :=
  { url := "https://x/4"
    title := "Valid title"
    source := "s"
    publishedAt := 0
    processedAt := 5
    matchedKeywords := ["k"]
    imageUrl := none
    description := none }

/-- C4 witness: the idempotence theorem applied to a concrete valid
record saved twice into a fresh store. -/
theorem saveArticle_idempotent_witness :
    (saveArticleOk (saveArticleOk emptyDB artC4ok).2 artC4ok).1 = (saveArticleOk emptyDB artC4ok).1
    ∧ ((saveArticleOk emptyDB artC4ok).2.rows.filter (fun x => x.url == artC4ok.url)).length = 1 :=
  ⟨(saveArticle_idempotent emptyDB artC4ok artC4ok (by decide) (by decide) rfl (by decide)).1,
   (saveArticle_idempotent emptyDB artC4ok artC4ok (by decide) (by decide) rfl (by decide)).2.2⟩


theorem isArticleProcessed_saveArticleOk (s : DBState) (a : Article) (u : String)
    (h : isArticleProcessed s u = true) :
    isArticleProcessed (saveArticleOk s a).2 u = true := by
  unfold saveArticleOk
  by_cases hv : validFields a = true
  · rw [if_pos hv]
    unfold insertArticle
    cases hf : s.rows.find? (fun r => r.url == a.url) with
    | some r => exact h
    | none =>
      show ((s.rows ++ [rowOf s a]).any (fun r => r.url == u)) = true
      rw [List.any_append]
      unfold isArticleProcessed at h
      rw [h]
      rfl
  · rw [if_neg hv]
    exact h

theorem isArticleProcessed_saveMany (s : DBState) (l : List Article) (u : String)
    (h : isArticleProcessed s u = true) :
    isArticleProcessed (saveMany s l) u = true := by
  induction l generalizing s with
  | nil => exact h
  | cons x xs ih =>
    show isArticleProcessed (saveMany (saveArticleOk s x).2 xs) u = true
    exact ih _ (isArticleProcessed_saveArticleOk s x u h)

theorem mem_insertDesc (r x : ArticleRow) (l : List ArticleRow) :
    x ∈ insertDesc r l ↔ x = r ∨ x ∈ l := by
  induction l with
  | nil => simp [insertDesc]
  | cons y ys ih =>
    unfold insertDesc
    by_cases hc : r.processedAt ≤ y.processedAt
    · rw [if_pos hc]
      rw [List.mem_cons, ih, List.mem_cons]
      tauto
    · rw [if_neg hc]
      rw [List.mem_cons, List.mem_cons]

theorem mem_sortFold (l : List ArticleRow) :
    ∀ (acc : List ArticleRow) (x : ArticleRow),
      x ∈ l.foldl (fun acc r => insertDesc r acc) acc ↔ x ∈ acc ∨ x ∈ l := by
  induction l with
  | nil => simp
  | cons y ys ih =>
    intro acc x
    show x ∈ ys.foldl (fun acc r => insertDesc r acc) (insertDesc y acc) ↔ _
    rw [ih (insertDesc y acc) x, mem_insertDesc]
    simp
    tauto

theorem mem_sortByProcessedAtDesc (l : List ArticleRow) (x : ArticleRow) :
    x ∈ sortByProcessedAtDesc l ↔ x ∈ l := by
  unfold sortByProcessedAtDesc
  rw [mem_sortFold]
  simp

theorem length_insertDesc (r : ArticleRow) (l : List ArticleRow) :
    (insertDesc r l).length = l.length + 1 := by
  induction l with
  | nil => rfl
  | cons y ys ih =>
    unfold insertDesc
    by_cases hc : r.processedAt ≤ y.processedAt
    · rw [if_pos hc]
      simp [ih]
    · rw [if_neg hc]
      simp

theorem length_sortFold (l : List ArticleRow) :
    ∀ acc : List ArticleRow,
      (l.foldl (fun acc r => insertDesc r acc) acc).length = acc.length + l.length := by
  induction l with
  | nil => simp
  | cons y ys ih =>
    intro acc
    show (ys.foldl (fun acc r => insertDesc r acc) (insertDesc y acc)).length = _
    rw [ih (insertDesc y acc), length_insertDesc]
    simp only [List.length_cons]
    omega

theorem length_sortByProcessedAtDesc (l : List ArticleRow) :
    (sortByProcessedAtDesc l).length = l.length := by
  unfold sortByProcessedAtDesc
  rw [length_sortFold]
  simp

/-- A record whose title carries a trailing space, used to exhibit the
round-trip title mismatch. -/
def artC5bad : Article :=
  { url := "https://x/5"
    title := "Hello "
    source := "s"
    publishedAt := 0
    processedAt := 5
    matchedKeywords := ["k"]
    imageUrl := none
    description := none }

/-- C5 counterexample: saving the record with title "Hello " (trailing
space) succeeds and marks the url processed, but `saveArticle` stores the
sanitized title "Hello", so no record returned by `getRecentArticles`
matches the input url, title and source exactly. -/
theorem saveArticle_roundtrip_counterexample :
    (saveArticleOk emptyDB artC5bad).1 ≠ 0
    ∧ isArticleProcessed (saveArticleOk emptyDB artC5bad).2 "https://x/5" = true
    ∧ ((getRecentArticles (saveArticleOk emptyDB artC5bad).2 none 50).all
        (fun r => !(r.url == "https://x/5" && r.title == "Hello " && r.source == "s"))) = true := by
  refine ⟨by decide, by decide, by decide⟩

/-- C5 (amended): after a successful save of a valid record R whose url
the store has not seen, `isProcessed(R.url)` is true and remains true
after any further sequence of saves; and `getRecentArticles` (no source
filter, limit at least the stored row count) contains a record whose url
and source equal R's exactly and whose title is R's sanitized title
(control characters stripped and whitespace-trimmed — for titles that
need no sanitization this is the input title itself). -/
theorem saveArticle_roundtrip (s : DBState) (a : Article) (more : List Article) (limit : Nat)
    (hv : validFields a = true)
    (hnew : isArticleProcessed s a.url = false)
    (hlim : (saveArticleOk s a).2.rows.length ≤ limit) :
    isArticleProcessed (saveArticleOk s a).2 a.url = true
    ∧ isArticleProcessed (saveMany (saveArticleOk s a).2 more) a.url = true
    ∧ ∃ r ∈ getRecentArticles (saveArticleOk s a).2 none limit,
        r.url = a.url ∧ r.title = sanitizeTitle a.title ∧ r.source = a.source := by
  have hf : s.rows.find? (fun x => x.url == a.url) = none := by
    rw [List.find?_eq_none]
    intro x hx hpx
    unfold isArticleProcessed at hnew
    have hany : s.rows.any (fun r => r.url == a.url) = true :=
      List.any_eq_true.mpr ⟨x, hx, hpx⟩
    rw [hnew] at hany
    exact absurd hany (by decide)
  have h1 : saveArticleOk s a =
      (s.nextId, { rows := s.rows ++ [rowOf s a], nextId := s.nextId + 1 }) := by
    unfold saveArticleOk
    rw [if_pos hv, insertArticle_new s a hf]
  have hproc : isArticleProcessed (saveArticleOk s a).2 a.url = true := by
    rw [h1]
    show ((s.rows ++ [rowOf s a]).any (fun r => r.url == a.url)) = true
    rw [List.any_append]
    have hone : ([rowOf s a].any (fun r => r.url == a.url)) = true := by
      simp [List.any, rowOf, beq_url_refl]
    rw [hone, Bool.or_true]
  refine ⟨hproc, isArticleProcessed_saveMany _ more _ hproc, ?_⟩
  refine ⟨rowOf s a, ?_, rfl, rfl, rfl⟩
  rw [h1]
  show rowOf s a ∈ (sortByProcessedAtDesc (s.rows ++ [rowOf s a])).take limit
  have hlen : (sortByProcessedAtDesc (s.rows ++ [rowOf s a])).length ≤ limit := by
    rw [length_sortByProcessedAtDesc]
    rw [h1] at hlim
    exact hlim
  rw [List.take_of_length_le hlen, mem_sortByProcessedAtDesc]
  exact List.mem_append.mpr (Or.inr (List.mem_singleton.mpr rfl))

/-- A valid, clean-titled record used to witness the round-trip theorem. -/
def artC5ok : Article :=
  { url := "https://x/6"
    title := "Clean title"
    source := "s"
    publishedAt := 0
    processedAt := 5
    matchedKeywords := ["k"]
    imageUrl := none
    description := none }

/-- C5 witness: the round-trip theorem applied to a concrete record saved
into a fresh store, followed by one more save. -/
theorem saveArticle_roundtrip_witness :
    isArticleProcessed (saveArticleOk emptyDB artC5ok).2 artC5ok.url = true
    ∧ isArticleProcessed (saveMany (saveArticleOk emptyDB artC5ok).2 [artC4ok]) artC5ok.url = true :=
  ⟨(saveArticle_roundtrip emptyDB artC5ok [artC4ok] 1 (by decide) (by decide) (by decide)).1,
   (saveArticle_roundtrip emptyDB artC5ok [artC4ok] 1 (by decide) (by decide) (by decide)).2.1⟩


/-- A valid record used in the corruption-recovery statements. -/
def artC9 : Article :=
  { url := "https://x/9"
    title := "Corrupt test"
    source := "s"
    publishedAt := 0
    processedAt := 5
    matchedKeywords := ["k"]
    imageUrl := none
    description := none }

/-- C9 counterexample: with write outcomes [corrupt, corrupt, success]
the store re-initializes twice and the write then succeeds with id 1 —
the claimed policy (exactly one re-initialization and one retry, then
abandon) would have stopped after the second corrupt outcome; and with a
corrupt write whose re-initialization fails, `saveArticle` propagates the
error to its caller instead of never raising. -/
theorem saveArticle_corrupt_counterexample :
    saveArticleR emptyDB artC9
        [WriteAttempt.failsCorrupt true, WriteAttempt.failsCorrupt true, WriteAttempt.succeeds]
      = Except.ok (insertArticle emptyDB artC9)
    ∧ (insertArticle emptyDB artC9).1 = 1
    ∧ reinitCount
        [WriteAttempt.failsCorrupt true, WriteAttempt.failsCorrupt true, WriteAttempt.succeeds] = 2
    ∧ saveArticleR emptyDB artC9 [WriteAttempt.failsCorrupt false]
      = Except.error "recovery failed" := by
  refine ⟨by decide, by decide, by decide, by decide⟩

/-- C9 (amended): for a valid record, a corrupt write triggers a
re-initialization and an unbounded recursive retry — one re-init per
consecutive corrupt outcome, with no one-retry cap; if a
re-initialization fails the error propagates out of the store (the
orchestrator's own per-article try/catch is what keeps the cycle alive);
a non-corrupt write error is abandoned with id 0 and no state change and
raises nothing. -/
theorem saveArticle_corrupt_retry (s : DBState) (a : Article) (rest : List WriteAttempt)
    (hv : validFields a = true) :
    saveArticleR s a (WriteAttempt.failsCorrupt true :: rest) = saveArticleR s a rest
    ∧ saveArticleR s a (WriteAttempt.failsOther :: rest) = Except.ok (0, s)
    ∧ saveArticleR s a (WriteAttempt.failsCorrupt false :: rest) = Except.error "recovery failed"
    ∧ reinitCount (WriteAttempt.failsCorrupt true :: rest) = reinitCount rest + 1 := by
  refine ⟨?_, ?_, ?_, rfl⟩
  · unfold saveArticleR
    rw [if_pos hv, if_pos hv]
    rfl
  · unfold saveArticleR
    rw [if_pos hv]
    rfl
  · unfold saveArticleR
    rw [if_pos hv]
    rfl

/-- C9 witness: the retry-structure theorem applied at a concrete record
and oracle. -/
theorem saveArticle_corrupt_retry_witness :
    saveArticleR emptyDB artC9 [WriteAttempt.failsCorrupt true] = saveArticleR emptyDB artC9 []
    ∧ saveArticleR emptyDB artC9 [WriteAttempt.failsOther] = Except.ok (0, emptyDB) :=
  ⟨(saveArticle_corrupt_retry emptyDB artC9 [] (by decide)).1,
   (saveArticle_corrupt_retry emptyDB artC9 [] (by decide)).2.1⟩


/-! ## Source adapters (src/scrapers/detik.ts, kompas.ts, and the other
scrapers with the same `scrapeNews` shape)

The two fetch channels are oracles: `rss` is the outcome of
`scrapeViaRSS()` (which for Detik and Kompas throws when no feed yields an
article, and for the other scrapers can also return an empty list), and
`html` is the outcome of `scrapeViaHTML()`.  A thrown error carries the
message interpolated by the scraper's catch block. -/

/-- An article stub produced by a scraper (`NewsItem` in
src/scrapers/base.ts). -/
structure NewsItem where
  title : String
  url : String
  publishedAt : Int
  source : String
  imageUrl : Option String
  description : Option String
deriving DecidableEq, Repr

/-- The `ScrapedResult` interface of src/scrapers/base.ts. -/
structure ScrapedResult where
  articles : List NewsItem
  success : Bool
  errors : List String
deriving DecidableEq, Repr

/-- The error message pushed by a scraper's catch block, e.g.
"Detik scraping failed: <message>". -/
def scrapeFailMsg (src e : String) : String := src ++ " scraping failed: " ++ e

/-- Method `scrapeNews()` (src/scrapers/detik.ts lines 24-55 and the parallel
implementations): try RSS first; when it yields at least one article use
those exclusively with success true; when it returns zero items fall back
to HTML, succeeding iff the fallback produced at least one article; when
either channel throws, the single catch block records the message in
`errors` and returns the (still empty) article list with success false. -/
def scrapeNews (src : String) (rss html : Except String (List NewsItem)) : ScrapedResult :=
  match rss with
  | .ok items =>
    if 0 < items.length then { articles := items, success := true, errors := [] }
    else
      match html with
      | .ok hitems =>
        { articles := hitems, success := decide (0 < hitems.length), errors := [] }
      | .error e => { articles := [], success := false, errors := [scrapeFailMsg src e] }
  | .error e => { articles := [], success := false, errors := [scrapeFailMsg src e] }

/-! ## Orchestrator collection phase (src/index.ts monitorNews, lines
159-234): each scraper is visited in order inside its own try/catch; the
stubs of a successful result are keyword-matched, checked against the
store and enriched with `fetchArticleMetadata` (an oracle `fetchMeta`,
whose result object overrides the stub's image and description fields as
the spread `{...article, ...metadata}` does). -/

/-- Construction of the processed `Article` in monitorNews. -/
def toProcessed (n : NewsItem) (meta : Option (Option String × Option String))
    (mk : List String) (now : Int) : Article :=
  { url := n.url
    title := n.title
    source := n.source
    publishedAt := n.publishedAt
    processedAt := now
    matchedKeywords := mk
    imageUrl := match meta with | some m => m.1 | none => n.imageUrl
    description := match meta with | some m => m.2 | none => n.description }

/-- The per-scraper body of monitorNews's loop: a scraper call that threw
contributes only its error message; a result with success and at least
one article contributes the new matching articles; any other result
contributes its errors. -/
def processSource (keywords : List String) (db : DBState)
    (fetchMeta : String → Option (Option String × Option String)) (now : Int)
    (res : Except String ScrapedResult) : List Article × List String :=
  match res with
  | .error e => ([], [e])
  | .ok r =>
    if r.success && decide (0 < r.articles.length) then
      (r.articles.filterMap (fun n =>
        let mk := findMatchingKeywords n.title keywords
        if 0 < mk.length then
          if isArticleProcessed db n.url then none
          else some (toProcessed n (fetchMeta n.url) mk now)
        else none), [])
    else ([], r.errors)

/-- The whole collection loop of monitorNews over the scraper outcomes in
order, accumulating articles and errors. -/
def collectCycle (keywords : List String) (db : DBState)
    (fetchMeta : String → Option (Option String × Option String)) (now : Int) :
    List (Except String ScrapedResult) → List Article × List String
  | [] => ([], [])
  | r :: rest =>
    let p := processSource keywords db fetchMeta now r
    let q := collectCycle keywords db fetchMeta now rest
    (p.1 ++ q.1, p.2 ++ q.2)

/-- C7: `scrapeNews` never propagates a channel error — a throwing
channel yields a result whose errors list carries the message — and its
success flag is true exactly when at least one article was produced; and
the orchestrator's collection loop distributes over list concatenation,
so a failing source contributes only its error messages while every other
source's articles are still collected. -/
theorem scrapeNews_error_isolation :
    (∀ src rss html,
      ((scrapeNews src rss html).success = true ↔ (scrapeNews src rss html).articles ≠ []))
    ∧ (∀ src e html, scrapeNews src (Except.error e) html =
        { articles := [], success := false, errors := [scrapeFailMsg src e] })
    ∧ (∀ src e, scrapeNews src (Except.ok []) (Except.error e) =
        { articles := [], success := false, errors := [scrapeFailMsg src e] })
    ∧ (∀ kw db fm now xs ys,
        (collectCycle kw db fm now (xs ++ ys)).1
          = (collectCycle kw db fm now xs).1 ++ (collectCycle kw db fm now ys).1
        ∧ (collectCycle kw db fm now (xs ++ ys)).2
          = (collectCycle kw db fm now xs).2 ++ (collectCycle kw db fm now ys).2) := by
  refine ⟨?_, fun src e html => rfl, fun src e => rfl, ?_⟩
  · intro src rss html
    match rss with
    | Except.error e => simp [scrapeNews]
    | Except.ok items =>
      by_cases hl : 0 < items.length
      · simp [scrapeNews, hl]
        intro h
        rw [h] at hl
        exact absurd hl (by decide)
      · have hnil : items = [] := List.length_eq_zero.mp (by omega)
        subst hnil
        match html with
        | Except.error e => simp [scrapeNews]
        | Except.ok hitems =>
          simp [scrapeNews]
          constructor
          · intro h
            exact List.length_pos.mp h
          · intro h
            exact List.length_pos.mpr h
  · intro kw db fm now xs ys
    induction xs with
    | nil => simp [collectCycle]
    | cons r rest ih =>
      simp only [List.cons_append, collectCycle, List.append_eq]
      constructor
      · rw [ih.1, List.append_assoc]
      · rw [ih.2, List.append_assoc]


/-! ## Discord dispatch and persistence (src/services/discord.ts
sendBulkArticles, src/index.ts monitorNews lines 236-262)

The webhook is an oracle `send` giving the success of `sendArticle` for
each article (rate limiting and HTTP outcomes folded in). -/

/-- The loop of `sendBulkArticles`: iterate while `i < articles.length`
and `i < maxPerBatch`; a successful send increments the counter, a failed
send breaks out of the batch.  Besides the success count the model also
returns the list of articles actually handed to the webhook, in order
(the source only logs these). -/
def sendLoop (send : Article → Bool) : List Article → Nat → Nat × List Article
  | [], _ => (0, [])
  | _ :: _, 0 => (0, [])
  | a :: rest, Nat.succ fuel =>
    if send a then
      let r := sendLoop send rest fuel
      (r.1 + 1, a :: r.2)
    else (0, [a])

/-- Method `DiscordService.sendBulkArticles(articles, maxPerBatch = 5)`:
returns (successCount, articles attempted). -/
def sendBulkArticles (send : Article → Bool) (articles : List Article)
    (maxPerBatch : Nat) : Nat × List Article :=
  sendLoop send articles maxPerBatch

/-- Specification-side description of which articles the batch loop
attempts: the articles up to and including the first failed send. -/
def attemptedSpec (send : Article → Bool) : List Article → List Article
  | [] => []
  | a :: rest => if send a then a :: attemptedSpec send rest else [a]

/-- The notification-and-persistence tail of `monitorNews` (src/index.ts
lines 236-262): when any articles were collected, cap the list with
`slice(0, maxArticlesPerCheck)`, send the capped list through
`sendBulkArticles` (batch size 5), and then save every article of the
capped list — the saves do not consult the send outcome.  Returns
(sentCount, database state, capped list). -/
def dispatchPhase (send : Article → Bool) (maxPerCheck : Nat) (db : DBState)
    (allArticles : List Article) : Nat × DBState × List Article :=
  if 0 < allArticles.length then
    let articlesToProcess := allArticles.take maxPerCheck
    ((sendBulkArticles send articlesToProcess 5).1,
      saveMany db articlesToProcess, articlesToProcess)
  else (0, db, [])

theorem sendLoop_spec (send : Article → Bool) :
    ∀ (arts : List Article) (fuel : Nat),
      (sendLoop send arts fuel).2 = attemptedSpec send (arts.take fuel)
      ∧ (sendLoop send arts fuel).1 = ((arts.take fuel).takeWhile send).length := by
  intro arts
  induction arts with
  | nil =>
    intro fuel
    cases fuel <;> simp [sendLoop, attemptedSpec]
  | cons a rest ih =>
    intro fuel
    cases fuel with
    | zero => simp [sendLoop, attemptedSpec]
    | succ f =>
      by_cases hs : send a
      · simp [sendLoop, hs, attemptedSpec, List.takeWhile_cons, ih f, (ih f).1, (ih f).2]
      · simp [sendLoop, hs, attemptedSpec, List.takeWhile_cons]

theorem dispatch_take (send : Article → Bool) (m : Nat) (db : DBState) (arts : List Article) :
    (dispatchPhase send m db arts).2.2 = arts.take m := by
  unfold dispatchPhase
  by_cases hl : 0 < arts.length
  · rw [if_pos hl]
  · rw [if_neg hl]
    have : arts = [] := List.length_eq_zero.mp (by omega)
    subst this
    simp

theorem processed_after_saveOk (db : DBState) (a : Article) (hv : validFields a = true) :
    isArticleProcessed (saveArticleOk db a).2 a.url = true := by
  unfold saveArticleOk
  rw [if_pos hv]
  unfold insertArticle
  cases hf : db.rows.find? (fun r => r.url == a.url) with
  | some r =>
    show isArticleProcessed db a.url = true
    unfold isArticleProcessed
    apply List.any_eq_true.mpr
    refine ⟨r, List.mem_of_find?_eq_some hf, ?_⟩
    have hpr := List.find?_some hf
    exact hpr
  | none =>
    show ((db.rows ++ [rowOf db a]).any (fun r => r.url == a.url)) = true
    rw [List.any_append]
    have hone : ([rowOf db a].any (fun r => r.url == a.url)) = true := by
      simp [List.any, rowOf, beq_url_refl]
    rw [hone, Bool.or_true]

theorem isArticleProcessed_saveMany_mem (db : DBState) (l : List Article) (a : Article)
    (ha : a ∈ l) (hv : validFields a = true) :
    isArticleProcessed (saveMany db l) a.url = true := by
  induction l generalizing db with
  | nil => cases ha
  | cons x xs ih =>
    rcases List.mem_cons.mp ha with h | h
    · subst h
      show isArticleProcessed (saveMany (saveArticleOk db a).2 xs) a.url = true
      exact isArticleProcessed_saveMany _ xs _ (processed_after_saveOk db a hv)
    · show isArticleProcessed (saveMany (saveArticleOk db x).2 xs) a.url = true
      exact ih _ h

/-- A minimal well-formed article with the given url, for concrete
pipeline runs. -/
def mkTestArticle (u : String) : Article :=
  { url := u
    title := "Title"
    source := "s"
    publishedAt := 0
    processedAt := 0
    matchedKeywords := ["k"]
    imageUrl := none
    description := none }

def artC1 : Article := mkTestArticle "https://c1/1"

def artC1w : Article := mkTestArticle "https://c1/2"

/-- C1 counterexample: a cycle that collects one article whose
notification fails (the send oracle always returns false, sentCount 0)
still persists that article — `monitorNews` saves every article of the
capped list after `sendBulkArticles` returns, without consulting the
outcome, so the url is marked processed and is never re-attempted. -/
theorem dispatch_persist_on_failed_send_counterexample :
    (dispatchPhase (fun _ => false) 10 emptyDB [artC1]).1 = 0
    ∧ isArticleProcessed (dispatchPhase (fun _ => false) 10 emptyDB [artC1]).2.1 artC1.url = true := by
  refine ⟨by decide, by decide⟩

/-- C1 (amended): persistence is independent of the notification outcome:
the database state produced by a cycle equals `saveMany` over the capped
list whatever the send oracle returns, two cycles differing only in send
outcomes persist identically, and every valid article of the capped list
ends up marked processed — including articles whose notification failed
or was never attempted. -/
theorem dispatch_persists_regardless (send send2 : Article → Bool) (m : Nat)
    (db : DBState) (arts : List Article) :
    (dispatchPhase send m db arts).2.1 = saveMany db (arts.take m)
    ∧ (dispatchPhase send m db arts).2.1 = (dispatchPhase send2 m db arts).2.1
    ∧ (∀ a ∈ arts.take m, validFields a = true →
        isArticleProcessed (dispatchPhase send m db arts).2.1 a.url = true) := by
  have hsave : ∀ send0 : Article → Bool,
      (dispatchPhase send0 m db arts).2.1 = saveMany db (arts.take m) := by
    intro send0
    unfold dispatchPhase
    by_cases hl : 0 < arts.length
    · rw [if_pos hl]
    · rw [if_neg hl]
      have : arts = [] := List.length_eq_zero.mp (by omega)
      subst this
      simp [saveMany]
  refine ⟨hsave send, by rw [hsave send, hsave send2], ?_⟩
  intro a ha hv
  rw [hsave send]
  exact isArticleProcessed_saveMany_mem db (arts.take m) a ha hv

/-- C1 witness: the theorem applied to one article whose send fails. -/
theorem dispatch_persists_regardless_witness :
    isArticleProcessed (dispatchPhase (fun _ => false) 10 emptyDB [artC1w]).2.1 artC1w.url = true :=
  (dispatch_persists_regardless (fun _ => false) (fun _ => true) 10 emptyDB [artC1w]).2.2
    artC1w (by decide) (by decide)

def artsC8 : List Article :=
  [mkTestArticle "https://c8/1", mkTestArticle "https://c8/2", mkTestArticle "https://c8/3",
    mkTestArticle "https://c8/4", mkTestArticle "https://c8/5", mkTestArticle "https://c8/6"]

/-- C8 counterexample: a cycle with six collected articles and a cap of
10 caps to all six, but even with every send succeeding the batch loop
hands only the first five to the webhook (its single batch of
`maxPerBatch = 5`); the sixth article of the capped list is never handed
to the collaborator. -/
theorem sendBulkArticles_cap_counterexample :
    (dispatchPhase (fun _ => true) 10 emptyDB artsC8).2.2 = artsC8
    ∧ mkTestArticle "https://c8/6" ∈ artsC8
    ∧ (sendBulkArticles (fun _ => true) artsC8 5).2.length = 5
    ∧ mkTestArticle "https://c8/6" ∉ (sendBulkArticles (fun _ => true) artsC8 5).2 := by
  refine ⟨by decide, by decide, by decide, by decide⟩

/-- C8 (amended): the accumulated list is truncated to
`maxArticlesPerCycle`, but only a prefix of the capped list is handed to
the collaborator: a single batch of at most 5 articles, attempted in
order and stopping at (and including) the first failed send; the success
count is the length of the maximal successful prefix. -/
theorem dispatch_cap_and_batch (send : Article → Bool) (m : Nat) (db : DBState)
    (arts : List Article) :
    (dispatchPhase send m db arts).2.2 = arts.take m
    ∧ (sendBulkArticles send (arts.take m) 5).2 = attemptedSpec send ((arts.take m).take 5)
    ∧ (sendBulkArticles send (arts.take m) 5).1
      = (((arts.take m).take 5).takeWhile send).length :=
  ⟨dispatch_take send m db arts,
   (sendLoop_spec send (arts.take m) 5).1,
   (sendLoop_spec send (arts.take m) 5).2⟩


/-! ## Scheduler (src/services/discord.ts, SchedulerService)

`scheduleJob` wraps the callback in an async onTick that logs and
swallows callback errors, and hands it to a `CronJob`.  Neither the
wrapper nor the cron dispatcher consults whether a previous invocation of
the same task is still running: every cron fire starts the wrapped
callback (fire-and-forget for async callbacks).  Time is modelled in
discrete minute ticks: a task on a cron expression with minute-field step
`n` fires at tick `t` iff `(t % 60) % n = 0`, and an invocation started
at tick `s` whose callback runs for `dur` ticks is active throughout
`[s, s + dur)`. -/

/-- Minute-field cron semantics of the expressions `minutesToCron`
produces for intervals below 60 (`* * * * *` is step 1): the schedule
fires at tick `t` iff the minute of the hour is a multiple of `n`. -/
def cronFires (n : Nat) (t : Nat) : Bool := (t % 60) % n == 0

/-- The invocation of a scheduled task started at tick `s` is still
running at tick `t`. -/
def invocationActiveAt (fire : Nat → Bool) (dur s t : Nat) : Prop :=
  fire s = true ∧ s ≤ t ∧ t < s + dur

/-- Two invocations of the same task are concurrently active at tick
`t`. -/
def overlapAt (fire : Nat → Bool) (dur t : Nat) : Prop :=
  ∃ s1 s2, s1 ≠ s2 ∧ invocationActiveAt fire dur s1 t ∧ invocationActiveAt fire dur s2 t

/-- Number of invocations of a task concurrently active at tick `t`
under `scheduleJob`'s unguarded dispatch (every fire starts one). -/
def activeCount (fire : Nat → Bool) (dur t : Nat) : Nat :=
  ((List.range (t + 1)).filter (fun s => fire s && decide (t < s + dur))).length

/-- C3 counterexample: a task scheduled every minute (`* * * * *`) whose
callback runs for two minutes has two concurrently-active invocations at
tick 1 — the fire at tick 1 is started, not skipped, while the tick-0
invocation is still running. -/
theorem scheduler_overlap_counterexample :
    activeCount (cronFires 1) 2 1 = 2
    ∧ overlapAt (cronFires 1) 2 1 :=
  ⟨by decide, ⟨0, 1, by decide, ⟨by decide, by decide, by decide⟩,
    ⟨by decide, by decide, by decide⟩⟩⟩

/-- C3 (amended): the scheduler has no overlap guard: for every interval
of 1-59 minutes and every callback running longer than the interval, the
fire at the end of the first interval starts a second invocation while
the first is still active, so two invocations of the same named task are
concurrently active — the fire is not skipped. -/
theorem scheduler_no_overlap_guard (interval dur : Nat)
    (h1 : 1 ≤ interval) (h59 : interval ≤ 59) (h2 : interval < dur) :
    overlapAt (cronFires interval) dur interval := by
  refine ⟨0, interval, by omega, ⟨?_, by omega, by omega⟩, ⟨?_, by omega, by omega⟩⟩
  · unfold cronFires
    have hz : (0 % 60) % interval = 0 := by simp
    rw [hz]
    rfl
  · unfold cronFires
    have hz : (interval % 60) % interval = 0 := by
      have h60 : interval % 60 = interval := Nat.mod_eq_of_lt (by omega)
      rw [h60, Nat.mod_self]
    rw [hz]
    rfl

/-- C3 witness: the no-guard theorem at a 2-minute task whose callback
runs 3 minutes. -/
theorem scheduler_no_overlap_guard_witness :
    overlapAt (cronFires 2) 3 2 :=
  scheduler_no_overlap_guard 2 3 (by decide) (by decide) (by decide)

/-! ## Interval-to-cron conversion (src/services/discord.ts,
SchedulerService.minutesToCron, lines 392-409) -/

/-- Whether the conversion threw. -/
def isError (e : Except String String) : Bool :=
  match e with
  | .error _ => true
  | .ok _ => false

/-- Method `SchedulerService.minutesToCron(minutes)`: throws below 1 minute,
special-cases 1 and 60, uses a minute-field step for 2-59, an hour-field
step for larger multiples of 60, and falls through to a minute-field
step `*/minutes` for everything else — including values above 60 not
divisible by 60. -/
def minutesToCron (minutes : Int) : Except String String :=
  if minutes < 1 then .error "Interval must be at least 1 minute"
  else if minutes = 1 then .ok "* * * * *"
  else if minutes < 60 then .ok ("*/" ++ toString minutes ++ " * * * *")
  else if minutes = 60 then .ok "0 * * * *"
  else if minutes % 60 = 0 then .ok ("0 */" ++ toString (minutes / 60) ++ " * * *")
  else .ok ("*/" ++ toString minutes ++ " * * * *")

/-- C10: `minutesToCron` throws exactly for n < 1, maps 1 to
`* * * * *`, 2-59 to `*/n * * * *`, 60 to `0 * * * *`, and larger
multiples of 60 to `0 */(n/60) * * *`; for every n > 60 not divisible by
60 it produces `*/n * * * *`, whose minute-field step exceeds 59 — under
cron minute-field semantics that schedule fires at tick 60 although 60 is
not a multiple of n, so it does not fire every n minutes. -/
theorem minutesToCron_cases :
    (∀ n : Int, isError (minutesToCron n) = true ↔ n < 1)
    ∧ minutesToCron 1 = Except.ok "* * * * *"
    ∧ (∀ n : Int, 2 ≤ n → n ≤ 59 →
        minutesToCron n = Except.ok ("*/" ++ toString n ++ " * * * *"))
    ∧ minutesToCron 60 = Except.ok "0 * * * *"
    ∧ (∀ n : Int, 60 < n → n % 60 = 0 →
        minutesToCron n = Except.ok ("0 */" ++ toString (n / 60) ++ " * * *"))
    ∧ (∀ n : Int, 60 < n → n % 60 ≠ 0 →
        minutesToCron n = Except.ok ("*/" ++ toString n ++ " * * * *")
        ∧ 59 < n.toNat
        ∧ cronFires n.toNat 60 = true
        ∧ ¬ (n.toNat ∣ 60)) := by
  refine ⟨?_, rfl, ?_, rfl, ?_, ?_⟩
  · intro n
    unfold minutesToCron
    by_cases hlt : n < 1
    · rw [if_pos hlt]
      simp [isError, hlt]
    · rw [if_neg hlt]
      by_cases h1 : n = 1
      · rw [if_pos h1]
        simp [isError, hlt]
      · rw [if_neg h1]
        by_cases h60 : n < 60
        · rw [if_pos h60]
          simp [isError, hlt]
        · rw [if_neg h60]
          by_cases he : n = 60
          · rw [if_pos he]
            simp [isError, hlt]
          · rw [if_neg he]
            by_cases hm : n % 60 = 0
            · rw [if_pos hm]
              simp [isError, hlt]
            · rw [if_neg hm]
              simp [isError, hlt]
  · intro n ha hb
    unfold minutesToCron
    rw [if_neg (by omega), if_neg (by omega), if_pos (by omega)]
  · intro n ha hb
    unfold minutesToCron
    rw [if_neg (by omega), if_neg (by omega), if_neg (by omega), if_neg (by omega), if_pos hb]
  · intro n ha hb
    refine ⟨?_, ?_, ?_, ?_⟩
    · unfold minutesToCron
      rw [if_neg (by omega), if_neg (by omega), if_neg (by omega), if_neg (by omega), if_neg hb]
    · omega
    · unfold cronFires
      have hz : (60 % 60) % n.toNat = 0 := by
        rw [Nat.mod_self]
        exact Nat.zero_mod n.toNat
      rw [hz]
      rfl
    · intro hd
      have hle : n.toNat ≤ 60 := Nat.le_of_dvd (by decide) hd
      omega

/-- C10 witness: the case analysis applied at 5, 120, 90 and 0 minutes. -/
theorem minutesToCron_cases_witness :
    minutesToCron 5 = Except.ok ("*/" ++ toString (5 : Int) ++ " * * * *")
    ∧ minutesToCron 120 = Except.ok ("0 */" ++ toString ((120 : Int) / 60) ++ " * * *")
    ∧ minutesToCron 90 = Except.ok ("*/" ++ toString (90 : Int) ++ " * * * *")
    ∧ cronFires (90 : Int).toNat 60 = true
    ∧ ¬ ((90 : Int).toNat ∣ 60)
    ∧ (isError (minutesToCron 0) = true) :=
  ⟨minutesToCron_cases.2.2.1 5 (by decide) (by decide),
   minutesToCron_cases.2.2.2.2.1 120 (by decide) (by decide),
   (minutesToCron_cases.2.2.2.2.2 90 (by decide) (by decide)).1,
   (minutesToCron_cases.2.2.2.2.2 90 (by decide) (by decide)).2.2.1,
   (minutesToCron_cases.2.2.2.2.2 90 (by decide) (by decide)).2.2.2,
   (minutesToCron_cases.1 0).mpr (by decide)⟩


/-- C7 witness: the error-isolation theorem applied to a Detik cycle
whose RSS channel throws a network error. -/
theorem scrapeNews_error_isolation_witness :
    scrapeNews "Detik" (Except.error "network error") (Except.ok []) =
      { articles := [], success := false, errors := [scrapeFailMsg "Detik" "network error"] } :=
  scrapeNews_error_isolation.2.1 "Detik" "network error" (Except.ok [])

/-- C8 witness: the cap-and-batch theorem applied to the six-article
cycle with an always-successful webhook. -/
theorem dispatch_cap_and_batch_witness :
    (sendBulkArticles (fun _ => true) (artsC8.take 10) 5).2
      = attemptedSpec (fun _ => true) ((artsC8.take 10).take 5) :=
  (dispatch_cap_and_batch (fun _ => true) 10 emptyDB artsC8).2.1
